import Mathlib

/-!
Verification of the local cache engine of `relstorage/cache/local_client.py`
(class `LocalClient`), shallowly embedded in Lean.

Bytes are modelled as `List Nat`.  The external compression libraries
(`zlib`, `bz2`) are modelled abstractly as a structure `CompLib` of
compress/decompress functions satisfying the round-trip law; the
decompress functions are partial (`Option`), since `zlib.decompress` /
`bz2.decompress` raise on invalid input.  The codec layer itself
(`_compress` / `_decompress`), the facade (`__setitem__`, `__call__`,
`store_checkpoints`, `save`, `restore`, `_items_to_write`,
`read_from_sqlite`, `write_to_sqlite`) are translated from the source.
The bucket type `SizedLRUMapping` (relstorage/cache/mapping.py) is not
part of the sources and is modelled from the spec where needed.
-/

namespace RelCache

abbrev Bytes := List Nat

/-- An `(oid, tid)` cache key: `(object_id, version_id)`. -/
abbrev OidTid := Nat × Nat

/-- A cached value `(state, actual_tid)`; `state = none` is a tombstone. -/
abbrev StoredV := Option Bytes × Nat

/-- The two-byte marker `b'.z'` for zlib (0x2e = 46 `'.'`, 0x7a = 122 `'z'`). -/
def zlibMarker : Bytes := [46, 122]

/-- The two-byte marker `b'.b'` for bz2 (0x2e = 46 `'.'`, 0x62 = 98 `'b'`). -/
def bz2Marker : Bytes := [46, 98]

/-- Abstract model of the external compression libraries `zlib` and `bz2`:
compression is total, decompression is partial (raising on invalid input is
modelled as `none`), and decompressing a compressed stream gives it back. -/
structure CompLib where
  zcomp : Bytes → Bytes
  zdecomp : Bytes → Option Bytes
  bcomp : Bytes → Bytes
  bdecomp : Bytes → Option Bytes
  z_round : ∀ b, zdecomp (zcomp b) = some b
  b_round : ∀ b, bdecomp (bcomp b) = some b

/-- The recognized values of `cache_local_compression`
(`LocalClient._compression_markers`). -/
inductive CompAlg
  | zlib
  | bz2
  | none
deriving DecidableEq

/-- `LocalClient._decompress`: if the first two bytes are a known marker,
strip them and decompress with the corresponding library function
(which may fail); otherwise return the data unchanged.  This method is
used regardless of the configured compression algorithm. -/
def _decompress (lib : CompLib) (data : Bytes) : Option Bytes :=
  if data.take 2 = zlibMarker then lib.zdecomp (data.drop 2)
  else if data.take 2 = bz2Marker then lib.bdecomp (data.drop 2)
  else some data

/-- `LocalClient._compress`: for a non-`none` algorithm, if the data is
nonempty, longer than 100 bytes and does not already begin with a known
marker, compress it and keep the result only when strictly shorter;
otherwise return the data unchanged.  For the `none` algorithm the
facade disables `_compress` (sets the attribute to `None`) and
`__setitem__` stores the raw bytes, i.e. the identity. -/
def _compress (lib : CompLib) (alg : CompAlg) (data : Bytes) : Bytes :=
  match alg with
  | .none => data
  | .zlib =>
    if data ≠ [] ∧ data.length > 100 ∧
        data.take 2 ≠ zlibMarker ∧ data.take 2 ≠ bz2Marker then
      if (zlibMarker ++ lib.zcomp data).length < data.length then
        zlibMarker ++ lib.zcomp data
      else data
    else data
  | .bz2 =>
    if data ≠ [] ∧ data.length > 100 ∧
        data.take 2 ≠ zlibMarker ∧ data.take 2 ≠ bz2Marker then
      if (bz2Marker ++ lib.bcomp data).length < data.length then
        bz2Marker ++ lib.bcomp data
      else data
    else data

/-- A concrete instantiation of the abstract compression library, used to
evaluate the codec on closed inputs.  It genuinely shortens the payload
`replicate 200 7` and prefixes everything else with a `1` tag. -/
def toyComp (b : Bytes) : Bytes :=
  if b = List.replicate 200 7 then [0] else 1 :: b

/-- Inverse of `toyComp`; fails on the empty stream (as real decompressors
do on truncated input). -/
def toyDecomp : Bytes → Option Bytes
  | [] => Option.none
  | a :: rest => if a = 0 then some (List.replicate 200 7) else some rest

set_option maxRecDepth 4000 in
theorem toyDecomp_toyComp (b : Bytes) : toyDecomp (toyComp b) = some b := by
  by_cases h : b = List.replicate 200 7
  · subst h; decide
  · simp only [toyComp, if_neg h, toyDecomp]
    simp

def toyLib : CompLib :=
  { zcomp := toyComp, zdecomp := toyDecomp
    bcomp := toyComp, bdecomp := toyDecomp
    z_round := toyDecomp_toyComp, b_round := toyDecomp_toyComp }

theorem take_two_append (m x : Bytes) (h : m.length = 2) : (m ++ x).take 2 = m := by
  rw [List.take_append_of_le_length (by omega), List.take_of_length_le (by omega)]

theorem drop_two_append (m x : Bytes) (h : m.length = 2) : (m ++ x).drop 2 = x := by
  rw [List.drop_append_of_le_length (by omega), List.drop_of_length_le (by omega),
    List.nil_append]

/-- C1 (counterexample): the input `[46, 122, 0]` begins with the zlib
marker `b'.z'`; `_compress` returns it unchanged (for every algorithm;
shown here for `none`), but `_decompress` strips the marker and
decompresses the remainder, so the round trip does not give back the
input. -/
theorem c1_counterexample :
    _decompress toyLib (_compress toyLib CompAlg.none [46, 122, 0]) ≠
      some [46, 122, 0] := by
  decide

/-- C1 (amended): for every compression library satisfying the round-trip
law, every recognized algorithm (`zlib`, `bz2`, `none`) and every byte
string `b` that does not already begin with a recognized marker
(`b'.z'`, `b'.b'`), decoding the result of encoding is the identity:
`_decompress (_compress b) = b`. -/
theorem c1_amended (lib : CompLib) (alg : CompAlg) (b : Bytes)
    (h1 : b.take 2 ≠ zlibMarker) (h2 : b.take 2 ≠ bz2Marker) :
    _decompress lib (_compress lib alg b) = some b := by
  have hz : ∀ x, (zlibMarker ++ x).take 2 = zlibMarker :=
    fun x => take_two_append zlibMarker x rfl
  have hzd : ∀ x, (zlibMarker ++ x).drop 2 = x :=
    fun x => drop_two_append zlibMarker x rfl
  have hb : ∀ x, (bz2Marker ++ x).take 2 = bz2Marker :=
    fun x => take_two_append bz2Marker x rfl
  have hbd : ∀ x, (bz2Marker ++ x).drop 2 = x :=
    fun x => drop_two_append bz2Marker x rfl
  have hzb : zlibMarker ≠ bz2Marker := by decide
  cases alg with
  | none =>
    simp [_compress, _decompress, h1, h2]
  | zlib =>
    simp only [_compress]
    by_cases hc : b ≠ [] ∧ b.length > 100 ∧
        b.take 2 ≠ zlibMarker ∧ b.take 2 ≠ bz2Marker
    · rw [if_pos hc]
      by_cases hlen : (zlibMarker ++ lib.zcomp b).length < b.length
      · rw [if_pos hlen]
        simp [_decompress, hz, hzd, lib.z_round]
      · rw [if_neg hlen]
        simp [_decompress, h1, h2]
    · rw [if_neg hc]
      simp [_decompress, h1, h2]
  | bz2 =>
    simp only [_compress]
    by_cases hc : b ≠ [] ∧ b.length > 100 ∧
        b.take 2 ≠ zlibMarker ∧ b.take 2 ≠ bz2Marker
    · rw [if_pos hc]
      by_cases hlen : (bz2Marker ++ lib.bcomp b).length < b.length
      · rw [if_pos hlen]
        simp [_decompress, hb, hbd, lib.b_round, Ne.symm hzb]
      · rw [if_neg hlen]
        simp [_decompress, h1, h2]
    · rw [if_neg hc]
      simp [_decompress, h1, h2]

/-- C1 (witness): the amended round trip evaluated for a short plain
payload. -/
theorem c1_witness :
    _decompress toyLib (_compress toyLib CompAlg.zlib [1, 2, 3]) =
      some [1, 2, 3] :=
  c1_amended toyLib CompAlg.zlib [1, 2, 3] (by decide) (by decide)

/-! ## The bucket

`LocalClient._bucket_type` is `SizedLRUMapping` from
`relstorage/cache/mapping.py`, which is not among the sources; it is
modelled from the spec (§3, §4.2). -/

/-- The three generations of the segmented LRU (spec §3). -/
inductive Gen
  | eden
  | probation
  | protectedGen
deriving DecidableEq

/-- Modelled from the spec: a bucket entry `(K, V, generation_tag,
frequency)` (spec §3, "Entry"). -/
structure SLRUEntry where
  key : OidTid
  value : StoredV
  gen : Gen
  freq : Nat
deriving DecidableEq

/-- `LocalClient.key_weight`: all keys weigh the size of two 64-bit
integers. -/
def key_weight (_ : OidTid) : Nat := 32

/-- `LocalClient.value_weight`: `len(value[0] if value[0] else b'') + 16`.
A `None` (or empty) state contributes `len(b'') = 0`, so the weight is
16, not 0. -/
def value_weight (v : StoredV) : Nat :=
  (match v.1 with
   | some s => s
   | Option.none => []).length + 16

def entryWeight (e : SLRUEntry) : Nat := key_weight e.key + value_weight e.value

/-- Modelled from the spec: the `SizedLRUMapping` bucket — a map of keys to
entries with a byte-weight limit and hit/miss statistics (spec §3, §4.2).
Entries are kept least-recently-inserted first; the generation structure is
carried per entry. -/
structure SizedLRUMapping where
  limit : Nat
  entries : List SLRUEntry
  hits : Nat
  misses : Nat
deriving DecidableEq

def bucketSize (b : SizedLRUMapping) : Nat := (b.entries.map entryWeight).sum

def bucketFind (b : SizedLRUMapping) (k : OidTid) : Option StoredV :=
  (b.entries.find? (fun e => decide (e.key = k))).map (·.value)

/-- Modelled from the spec: evictions continue until the total weight is at
most the limit (spec §4.2, invariant I1); least-recent entries go first. -/
def evictDown (limit : Nat) : List SLRUEntry → List SLRUEntry
  | [] => []
  | e :: rest =>
    if (((e :: rest).map entryWeight).sum) ≤ limit then e :: rest
    else evictDown limit rest

/-- Modelled from the spec: `set(K, V)` — insert (entering `eden`) or
overwrite in place with frequency reset to 1, then evict until the
weight invariant holds (spec §4.2). -/
def bucketSet (b : SizedLRUMapping) (k : OidTid) (v : StoredV) : SizedLRUMapping :=
  let es :=
    if b.entries.any (fun e => decide (e.key = k)) then
      b.entries.map (fun e => if e.key = k then {e with value := v, freq := 1} else e)
    else
      b.entries ++ [⟨k, v, Gen.eden, 1⟩]
  {b with entries := evictDown b.limit es}

/-- Modelled from the spec: `get_and_promote` / `get_and_bubble_all` —
return the subset of the requested keys that is present, bumping the
frequency of each found entry and the hit/miss statistics (spec §4.2). -/
def getAndBubbleAll (b : SizedLRUMapping) (keys : List OidTid) :
    List (OidTid × StoredV) × SizedLRUMapping :=
  keys.foldl
    (fun acc k =>
      match bucketFind acc.2 k with
      | some v =>
        (acc.1 ++ [(k, v)],
         {acc.2 with
            entries := acc.2.entries.map
              (fun e => if e.key = k then {e with freq := e.freq + 1} else e),
            hits := acc.2.hits + 1})
      | Option.none => (acc.1, {acc.2 with misses := acc.2.misses + 1}))
    ([], b)

/-- Lookup in the result map of `getAndBubbleAll` (`res` in `__call__`). -/
def lookupAssoc (l : List (OidTid × StoredV)) (k : OidTid) : Option StoredV :=
  (l.find? (fun p => decide (p.1 = k))).map (·.2)

/-! ## The facade -/

/-- Python-level failures of the facade paths: `TypeError` (subscripting
`None`, or the `assert isinstance` in `__setitem__`) and the error a
decompression library raises on invalid input. -/
inductive PyErr
  | typeError
  | decompressError
deriving DecidableEq

/-- The `decompress(state)` step of `__call__`: the stored state may be
`None` (a tombstone), in which case `_decompress` evaluates `None[:2]`
and raises `TypeError`. -/
def decompressState (lib : CompLib) : Option Bytes → Except PyErr Bytes
  | Option.none => .error .typeError
  | some data =>
    match _decompress lib data with
    | some d => .ok d
    | Option.none => .error .decompressError

/-- The state of a `LocalClient`: configured limits, compression algorithm,
whether `cache_local_dir` is set, the bucket, and the checkpoint pair. -/
structure LocalClient where
  limit : Nat
  value_limit : Nat
  alg : CompAlg
  cache_local_dir : Bool
  bucket : SizedLRUMapping
  checkpoints : Option (Nat × Nat)
deriving DecidableEq

/-- The `state` argument of `__setitem__` as a Python value: bytes, `None`,
or anything else (which the `assert isinstance` rejects). -/
inductive StateArg
  | bytes (b : Bytes)
  | noneState
  | nonBytes
deriving DecidableEq

/-- `LocalClient.__setitem__`: do nothing when the limit is zero; reject a
state that is neither bytes nor `None` with a type error; compress
(`cvalue = compress(state_bytes) if compress else state_bytes`; for a
`None` state every branch yields `None`); silently drop a nonempty
compressed value whose length reaches `_value_limit`; otherwise store
`(cvalue, tid)` in the bucket. -/
def setItemF (lib : CompLib) (c : LocalClient) (k : OidTid) (v : StateArg × Nat) :
    Except PyErr LocalClient :=
  if c.limit = 0 then .ok c
  else
    match v.1 with
    | .nonBytes => .error .typeError
    | .noneState =>
      .ok {c with bucket := bucketSet c.bucket k (Option.none, v.2)}
    | .bytes s =>
      let cvalue := _compress lib c.alg s
      if cvalue ≠ [] ∧ cvalue.length ≥ c.value_limit then .ok c
      else .ok {c with bucket := bucketSet c.bucket k (some cvalue, v.2)}

/-- The value `__call__` computes from a bucket hit `(state, tid)`:
`(decompress(state), tid)`, or the error `decompress` raises. -/
def decodeResult (lib : CompLib) (st : Option Bytes) (t : Nat) :
    Except PyErr (Option (Bytes × Nat)) :=
  match decompressState lib st with
  | .ok d => .ok (some (d, t))
  | .error e => .error e

/-- `LocalClient.__call__` (the dual-key lookup): probe `(oid, tid1)` and,
if given, `(oid, tid2)` with `get_and_bubble_all`; on a backup-only hit
copy the entry to the preferred key; then, outside the lock, return the
decompressed preferred entry, or `None` on a miss. -/
def callF (lib : CompLib) (c : LocalClient) (oid tid1 : Nat) (tid2 : Option Nat) :
    Except PyErr (Option (Bytes × Nat)) × LocalClient :=
  let keys : List OidTid :=
    match tid2 with
    | some t2 => [(oid, tid1), (oid, t2)]
    | Option.none => [(oid, tid1)]
  let p := getAndBubbleAll c.bucket keys
  let q : List (OidTid × StoredV) × SizedLRUMapping :=
    match tid2 with
    | some t2 =>
      if (lookupAssoc p.1 (oid, tid1)).isNone then
        match lookupAssoc p.1 (oid, t2) with
        | some data => (((oid, tid1), data) :: p.1, bucketSet p.2 (oid, tid1) data)
        | Option.none => p
      else p
    | Option.none => p
  let c' := {c with bucket := q.2}
  match lookupAssoc q.1 (oid, tid1) with
  | Option.none => (.ok Option.none, c')
  | some sv => (decodeResult lib sv.1 sv.2, c')

/-! ## C6: entry weights -/

/-- C6 (counterexample): the value weight of a tombstone `(None, t)` is 16,
not 0 as the claim states. -/
theorem c6_counterexample : value_weight (Option.none, 0) = 16 ∧ (16 : Nat) ≠ 0 := by
  decide

/-- C6 (amended): the key weight is exactly 32 for every key; the value
weight of `(state, actual_version)` is `len(state) + 16` for a bytes
state and 16 (not 0) for a `None` state. -/
theorem c6_amended :
    (∀ k : OidTid, key_weight k = 32)
    ∧ (∀ (s : Bytes) (t : Nat), value_weight (some s, t) = s.length + 16)
    ∧ (∀ t : Nat, value_weight (Option.none, t) = 16) :=
  ⟨fun _ => rfl, fun _ _ => rfl, fun _ => rfl⟩

/-! ## C2: tombstone insert and lookup -/

def c2_client : LocalClient :=
  { limit := 1000000, value_limit := 16384, alg := CompAlg.none,
    cache_local_dir := false,
    bucket := { limit := 1000000, entries := [], hits := 0, misses := 0 },
    checkpoints := Option.none }

def c2_after : LocalClient :=
  { c2_client with
    bucket := { c2_client.bucket with
                entries := [⟨(1, 5), (Option.none, 5), Gen.eden, 1⟩] } }

/-- C2 (code bug): with a nonzero limit, `insert((1, 5), (None, 5))` does
store the tombstone, but the subsequent `lookup(1, 5)` does not return
`(None, 5)`: `__call__` passes the stored `None` state to `_decompress`,
which evaluates `None[:2]` and raises `TypeError`. -/
theorem c2_code_bug :
    setItemF toyLib c2_client (1, 5) (StateArg.noneState, 5) = .ok c2_after
    ∧ bucketFind c2_after.bucket (1, 5) = some (Option.none, 5)
    ∧ (callF toyLib c2_after 1 5 Option.none).1 = .error PyErr.typeError :=
  ⟨rfl, rfl, rfl⟩

/-! ## C8: type-error on a non-bytes, non-None state -/

/-- C8 (confirmed): with a nonzero configured limit, an insert whose state
is neither bytes nor `None` fails with a type error which propagates to
the caller (and, the result being an error, no new client state is
produced — the bucket is unchanged). -/
theorem c8_confirmed (lib : CompLib) (c : LocalClient) (k : OidTid) (t : Nat)
    (h : c.limit ≠ 0) :
    setItemF lib c k (StateArg.nonBytes, t) = .error PyErr.typeError := by
  simp [setItemF, h]

/-- C8 (witness). -/
theorem c8_witness :
    setItemF toyLib c2_after (2, 3) (StateArg.nonBytes, 7) = .error PyErr.typeError :=
  c8_confirmed toyLib c2_after (2, 3) 7 (by decide)

/-! ## C3: dual-key lookup copy -/

theorem find?_append_none {α} (p : α → Bool) (l1 l2 : List α)
    (h : l1.find? p = Option.none) : (l1 ++ l2).find? p = l2.find? p := by
  induction l1 with
  | nil => simp
  | cons a l ih =>
    by_cases hp : p a
    · simp [List.find?_cons_of_pos _ hp] at h
    · rw [List.find?_cons_of_neg _ hp] at h
      simpa [List.find?_cons_of_neg _ hp] using ih h

theorem bump_key (a : SLRUEntry) (k2 : OidTid) :
    (if a.key = k2 then ({a with freq := a.freq + 1} : SLRUEntry) else a).key = a.key := by
  by_cases h : a.key = k2 <;> simp [h]

theorem bump_value (a : SLRUEntry) (k2 : OidTid) :
    (if a.key = k2 then ({a with freq := a.freq + 1} : SLRUEntry) else a).value
      = a.value := by
  by_cases h : a.key = k2 <;> simp [h]

theorem bump_weight (a : SLRUEntry) (k2 : OidTid) :
    entryWeight (if a.key = k2 then ({a with freq := a.freq + 1} : SLRUEntry) else a)
      = entryWeight a := by
  by_cases h : a.key = k2 <;> simp [h, entryWeight]

/-- Bumping frequencies does not change what `find?`-by-key returns up to
the value projection. -/
theorem bucketFind_bump (l : List SLRUEntry) (k2 k : OidTid) :
    (((l.map (fun e => if e.key = k2 then {e with freq := e.freq + 1} else e)).find?
        (fun e => decide (e.key = k))).map (·.value))
      = ((l.find? (fun e => decide (e.key = k))).map (·.value)) := by
  induction l with
  | nil => rfl
  | cons a l ih =>
    have hpred : (decide ((if a.key = k2 then ({a with freq := a.freq + 1} : SLRUEntry)
        else a).key = k)) = decide (a.key = k) := by
      by_cases hk2 : a.key = k2
      · rw [if_pos hk2]
      · rw [if_neg hk2]
    simp only [List.map_cons]
    by_cases h2 : a.key = k
    · rw [List.find?_cons_of_pos _ (by rw [hpred]; simp [h2]),
        List.find?_cons_of_pos _ (by simp [h2])]
      simp [bump_value]
    · rw [List.find?_cons_of_neg _ (by rw [hpred]; simp [h2]),
        List.find?_cons_of_neg _ (by simp [h2])]
      exact ih

/-- Bumping frequencies does not change the total weight. -/
theorem weight_bump (l : List SLRUEntry) (k2 : OidTid) :
    ((l.map (fun e => if e.key = k2 then {e with freq := e.freq + 1} else e)).map
        entryWeight).sum
      = (l.map entryWeight).sum := by
  induction l with
  | nil => rfl
  | cons a l ih =>
    simp only [List.map_cons, List.sum_cons, bump_weight, ih]

theorem evictDown_of_le (limit : Nat) (es : List SLRUEntry)
    (h : (es.map entryWeight).sum ≤ limit) : evictDown limit es = es := by
  cases es with
  | nil => rfl
  | cons e rest =>
    simp only [evictDown]
    rw [if_pos h]

/-- C3 (confirmed): if `(oid, v1)` is absent, `(oid, v2)` is present with
stored value `(st, t)`, and there is capacity for one more entry, then
`lookup(oid, v1, v2)` returns the decoded `(st, t)` (the hit is reported
at `v1`), the entry is copied to key `(oid, v1)`, and a subsequent
`lookup(oid, v1)` with no fallback returns the same decoded value from
the preferred key alone. -/
theorem c3_confirmed (lib : CompLib) (c : LocalClient) (oid v1 v2 : Nat)
    (st : Option Bytes) (t : Nat)
    (hne : v1 ≠ v2)
    (h1 : bucketFind c.bucket (oid, v1) = Option.none)
    (h2 : bucketFind c.bucket (oid, v2) = some (st, t))
    (hcap : bucketSize c.bucket + (32 + value_weight (st, t)) ≤ c.bucket.limit) :
    (callF lib c oid v1 (some v2)).1 = decodeResult lib st t
    ∧ bucketFind (callF lib c oid v1 (some v2)).2.bucket (oid, v1) = some (st, t)
    ∧ (callF lib (callF lib c oid v1 (some v2)).2 oid v1 Option.none).1 =
        decodeResult lib st t := by
  obtain ⟨climit, cvlimit, calg, cdir, bucket, ccps⟩ := c
  obtain ⟨blim, es, bh, bm⟩ := bucket
  simp only [bucketFind, bucketSize] at h1 h2 hcap
  have hkne : ((oid, v2) : OidTid) ≠ (oid, v1) := by
    intro h; exact hne (congrArg Prod.snd h).symm
  have hf1 : es.find? (fun e => decide (e.key = (oid, v1))) = Option.none :=
    Option.map_eq_none'.1 h1
  obtain ⟨e2, hf2, hv2⟩ := Option.map_eq_some'.1 h2
  -- the probe-and-copy part of the dual-key call
  have hmap1 : (es.map (fun e =>
      if e.key = (oid, v2) then {e with freq := e.freq + 1} else e)).find?
        (fun e => decide (e.key = (oid, v1))) = Option.none := by
    have hf := bucketFind_bump es (oid, v2) (oid, v1)
    rw [hf1] at hf
    exact Option.map_eq_none'.1 hf
  have hany1 : (es.map (fun e =>
      if e.key = (oid, v2) then {e with freq := e.freq + 1} else e)).any
        (fun e => decide (e.key = (oid, v1))) = false := by
    rw [List.any_eq_false]
    intro x hx
    have := List.find?_eq_none.1 hmap1 x hx
    simpa using this
  have hb2 : bucketFind (bucketSet
      ⟨blim, es.map (fun e =>
        if e.key = (oid, v2) then {e with freq := e.freq + 1} else e),
       bh + 1, bm + 1⟩ (oid, v1) (st, t)) (oid, v1) = some (st, t) := by
    have hes : (((es.map (fun (e : SLRUEntry) =>
        if e.key = (oid, v2) then {e with freq := e.freq + 1} else e)
          ++ [(⟨(oid, v1), (st, t), Gen.eden, 1⟩ : SLRUEntry)]).map
            entryWeight).sum) ≤ blim := by
      rw [List.map_append, List.sum_append, weight_bump]
      simpa [entryWeight, key_weight] using hcap
    simp only [bucketSet, hany1, Bool.false_eq_true, if_false]
    rw [evictDown_of_le _ _ hes]
    simp only [bucketFind]
    rw [find?_append_none _ _ _ hmap1]
    simp
  have hres1 : lookupAssoc [((oid, v2), e2.value)] (oid, v1) = Option.none := by
    simp [lookupAssoc, List.find?, hkne]
  have hres2 : lookupAssoc [((oid, v2), e2.value)] (oid, v2) = some e2.value := by
    simp [lookupAssoc, List.find?]
  have hres3 : lookupAssoc (((oid, v1), e2.value) :: [((oid, v2), e2.value)])
      (oid, v1) = some e2.value := by
    simp [lookupAssoc, List.find?]
  have hcall : callF lib ⟨climit, cvlimit, calg, cdir, ⟨blim, es, bh, bm⟩, ccps⟩
      oid v1 (some v2) =
      (decodeResult lib st t,
       ⟨climit, cvlimit, calg, cdir,
        bucketSet ⟨blim, es.map (fun e =>
          if e.key = (oid, v2) then {e with freq := e.freq + 1} else e),
         bh + 1, bm + 1⟩ (oid, v1) (st, t), ccps⟩) := by
    simp only [callF, getAndBubbleAll, List.foldl, bucketFind]
    rw [hf1]
    simp only [Option.map_none']
    rw [hf2]
    simp only [Option.map_some', List.nil_append]
    rw [hres1]
    rw [if_pos (show (Option.none : Option StoredV).isNone = true from rfl)]
    rw [hres2]
    simp only []
    rw [hres3]
    simp only [Option.map_some']
    rw [hv2]
  refine ⟨by rw [hcall], by rw [hcall]; exact hb2, ?_⟩
  rw [hcall]
  simp only [callF, getAndBubbleAll, List.foldl]
  rw [hb2]
  simp [lookupAssoc]

/-- C3 (witness): the dual-key copy behaviour evaluated on a concrete
client. -/
def c3_client : LocalClient :=
  { limit := 1000, value_limit := 500, alg := CompAlg.none,
    cache_local_dir := false,
    bucket := { limit := 1000,
                entries := [⟨(9, 200), (some [5, 6], 200), Gen.eden, 1⟩],
                hits := 0, misses := 0 },
    checkpoints := Option.none }

theorem c3_witness :
    (callF toyLib c3_client 9 300 (some 200)).1 = decodeResult toyLib (some [5, 6]) 200
    ∧ bucketFind (callF toyLib c3_client 9 300 (some 200)).2.bucket (9, 300) =
        some (some [5, 6], 200)
    ∧ (callF toyLib (callF toyLib c3_client 9 300 (some 200)).2 9 300 Option.none).1 =
        decodeResult toyLib (some [5, 6]) 200 :=
  c3_confirmed toyLib c3_client 9 300 200 (some [5, 6]) 200
    (by decide) (by decide) (by decide) (by decide)

/-! ## C9: oversize rejection -/

/-- C9 (amended): an insert of a bytes state whose compressed value is
nonempty and at least `cache_local_object_max` long is silently
discarded — no error, same client state — and, when the key was absent,
a subsequent lookup of that key returns `None`. -/
theorem c9_amended (lib : CompLib) (c : LocalClient) (oid tid : Nat)
    (s : Bytes) (t : Nat)
    (hcv : _compress lib c.alg s ≠ [])
    (hbig : (_compress lib c.alg s).length ≥ c.value_limit)
    (habs : bucketFind c.bucket (oid, tid) = Option.none) :
    setItemF lib c (oid, tid) (StateArg.bytes s, t) = .ok c
    ∧ (callF lib c oid tid Option.none).1 = .ok Option.none := by
  constructor
  · by_cases h0 : c.limit = 0
    · simp [setItemF, h0]
    · simp [setItemF, h0, hcv, hbig]
  · simp only [callF, getAndBubbleAll, List.foldl]
    rw [habs]
    simp [lookupAssoc]

def c9_client : LocalClient :=
  { limit := 1000000, value_limit := 3, alg := CompAlg.none,
    cache_local_dir := false,
    bucket := { limit := 1000000,
                entries := [⟨(1, 1), (some [7], 1), Gen.eden, 1⟩],
                hits := 0, misses := 0 },
    checkpoints := Option.none }

/-- C9 (counterexample): with `cache_local_object_max = 3`, inserting the
oversized `[5, 5, 5, 5]` under the already-populated key `(1, 1)` is
discarded (client unchanged), but the subsequent `lookup(1, 1)` returns
the previously stored `([7], 1)` — not `None` as the claim states. -/
theorem c9_counterexample :
    (_compress toyLib c9_client.alg [5, 5, 5, 5]).length ≥ c9_client.value_limit
    ∧ setItemF toyLib c9_client (1, 1) (StateArg.bytes [5, 5, 5, 5], 1) = .ok c9_client
    ∧ (callF toyLib c9_client 1 1 Option.none).1 = .ok (some ([7], 1))
    ∧ (callF toyLib c9_client 1 1 Option.none).1 ≠ .ok Option.none := by
  refine ⟨by decide, rfl, rfl, ?_⟩
  rw [show (callF toyLib c9_client 1 1 Option.none).1 =
    Except.ok (some (([7] : Bytes), (1 : Nat))) from rfl]
  simp

/-- C9 (witness): oversize discard on an absent key. -/
def c9w_client : LocalClient :=
  { limit := 1000000, value_limit := 3, alg := CompAlg.none,
    cache_local_dir := false,
    bucket := { limit := 1000000, entries := [], hits := 0, misses := 0 },
    checkpoints := Option.none }

theorem c9_witness :
    setItemF toyLib c9w_client (3, 1) (StateArg.bytes [8, 8, 8, 8], 1) = .ok c9w_client
    ∧ (callF toyLib c9w_client 3 1 Option.none).1 = .ok Option.none :=
  c9_amended toyLib c9w_client 3 1 [8, 8, 8, 8] 1 (by decide) (by decide) (by decide)

/-! ## C7: checkpoints -/

/-- `LocalClient.store_checkpoints`: a plain assignment of the pair, with no
validation of `cp0 ≥ cp1`. -/
def store_checkpoints (c : LocalClient) (cp0 cp1 : Nat) : LocalClient :=
  {c with checkpoints := some (cp0, cp1)}

/-- `LocalClient.get_checkpoints`. -/
def get_checkpoints (c : LocalClient) : Option (Nat × Nat) := c.checkpoints

/-- `LocalClient.flush_all`: rebuild an empty bucket with the configured
limit and discard the checkpoints. -/
def flushAllF (c : LocalClient) : LocalClient :=
  {c with bucket := ⟨c.limit, [], 0, 0⟩, checkpoints := Option.none}

/-- `LocalClient.reset_stats` (delegated to the bucket). -/
def reset_stats (c : LocalClient) : LocalClient :=
  {c with bucket := {c.bucket with hits := 0, misses := 0}}

/-- `LocalClient.set_multi`: apply `__setitem__` per entry; a raised error
aborts the iteration, leaving the state reached so far. -/
def setMultiF (lib : CompLib) (c : LocalClient) :
    List (OidTid × (StateArg × Nat)) → LocalClient
  | [] => c
  | (k, v) :: rest =>
    match setItemF lib c k v with
    | .ok c' => setMultiF lib c' rest
    | .error _ => c

/-- The in-memory facade operations (spec §6.2) as a step relation input. -/
inductive FacadeOp
  | lookup (oid tid1 : Nat) (tid2 : Option Nat)
  | insert (k : OidTid) (v : StateArg × Nat)
  | insertMany (kvs : List (OidTid × (StateArg × Nat)))
  | storeCheckpoints (cp0 cp1 : Nat)
  | flushAll
  | resetStats
  | close
deriving DecidableEq

/-- One facade operation, as a state transformer (return values dropped; a
raised insert error leaves the state unchanged, since the type check
precedes any mutation). -/
def stepOp (lib : CompLib) (c : LocalClient) : FacadeOp → LocalClient
  | .lookup oid t1 t2 => (callF lib c oid t1 t2).2
  | .insert k v =>
    match setItemF lib c k v with
    | .ok c' => c'
    | .error _ => c
  | .insertMany kvs => setMultiF lib c kvs
  | .storeCheckpoints cp0 cp1 => store_checkpoints c cp0 cp1
  | .flushAll => flushAllF c
  | .resetStats => reset_stats c
  | .close => c

/-- The checkpoints invariant I5: absent, or a pair with `cp0 ≥ cp1`. -/
def cpOk : Option (Nat × Nat) → Bool
  | Option.none => true
  | some p => decide (p.2 ≤ p.1)

/-- Whether an operation only stores well-ordered checkpoint pairs. -/
def opOk : FacadeOp → Bool
  | .storeCheckpoints cp0 cp1 => decide (cp1 ≤ cp0)
  | _ => true

theorem callF_checkpoints (lib : CompLib) (c : LocalClient) (oid t1 : Nat)
    (t2 : Option Nat) : ((callF lib c oid t1 t2).2).checkpoints = c.checkpoints := by
  simp only [callF]
  split <;> rfl

theorem setItemF_checkpoints (lib : CompLib) (c : LocalClient) (k : OidTid)
    (v : StateArg × Nat) {c' : LocalClient} (h : setItemF lib c k v = .ok c') :
    c'.checkpoints = c.checkpoints := by
  simp only [setItemF] at h
  by_cases h0 : c.limit = 0
  · rw [if_pos h0] at h
    cases h
    rfl
  · rw [if_neg h0] at h
    rcases v with ⟨sa, t⟩
    cases sa with
    | nonBytes => simp at h
    | noneState => cases h; rfl
    | bytes s =>
      dsimp only at h
      by_cases hc : _compress lib c.alg s ≠ [] ∧
          (_compress lib c.alg s).length ≥ c.value_limit
      · rw [if_pos hc] at h; cases h; rfl
      · rw [if_neg hc] at h; cases h; rfl

theorem setMultiF_checkpoints (lib : CompLib) :
    ∀ (kvs : List (OidTid × (StateArg × Nat))) (c : LocalClient),
      (setMultiF lib c kvs).checkpoints = c.checkpoints := by
  intro kvs
  induction kvs with
  | nil => intro c; rfl
  | cons kv rest ih =>
    intro c
    rcases kv with ⟨k, v⟩
    simp only [setMultiF]
    cases hs : setItemF lib c k v with
    | ok c' => rw [ih c', setItemF_checkpoints lib c k v hs]
    | error e => rfl

/-- C7 (amended): `store_checkpoints` stores its arguments as given without
enforcing `cp0 ≥ cp1`; hence after any sequence of facade operations in
which every `store_checkpoints` call satisfies `cp0 ≥ cp1`, the
observable checkpoints value is either absent or a pair with
`cp0 ≥ cp1`. -/
theorem c7_amended (lib : CompLib) (c : LocalClient) (ops : List FacadeOp)
    (h0 : cpOk c.checkpoints = true)
    (hops : ∀ op ∈ ops, opOk op = true) :
    cpOk ((ops.foldl (stepOp lib) c).checkpoints) = true := by
  induction ops generalizing c with
  | nil => simpa using h0
  | cons op ops ih =>
    have hop := hops op (by simp)
    have hrest : ∀ o ∈ ops, opOk o = true := fun o ho => hops o (by simp [ho])
    rw [List.foldl_cons]
    apply ih _ ?_ hrest
    cases op with
    | lookup oid t1 t2 =>
      simp only [stepOp]
      rw [callF_checkpoints]
      exact h0
    | insert k v =>
      simp only [stepOp]
      cases hs : setItemF lib c k v with
      | ok c' => rw [setItemF_checkpoints lib c k v hs]; exact h0
      | error e => exact h0
    | insertMany kvs =>
      simp only [stepOp]
      rw [setMultiF_checkpoints]
      exact h0
    | storeCheckpoints a b =>
      simpa [stepOp, store_checkpoints, cpOk, opOk] using hop
    | flushAll => simp [stepOp, flushAllF, cpOk]
    | resetStats => simpa [stepOp, reset_stats] using h0
    | close => simpa [stepOp] using h0

def c7_client : LocalClient :=
  { limit := 1000000, value_limit := 16384, alg := CompAlg.zlib,
    cache_local_dir := false,
    bucket := { limit := 1000000, entries := [], hits := 0, misses := 0 },
    checkpoints := Option.none }

/-- C7 (counterexample): `store_checkpoints(1, 5)` — arbitrary arguments —
is stored as given, so `get_checkpoints` observes the pair `(1, 5)` with
`cp0 < cp1`, violating the claimed invariant. -/
theorem c7_counterexample :
    get_checkpoints ([FacadeOp.storeCheckpoints 1 5].foldl (stepOp toyLib) c7_client)
      = some (1, 5)
    ∧ cpOk (some (1, 5)) = false :=
  ⟨rfl, rfl⟩

/-- C7 (witness): a sequence of well-ordered stores keeps the invariant. -/
theorem c7_witness :
    cpOk (([FacadeOp.storeCheckpoints 9 4, FacadeOp.flushAll,
        FacadeOp.storeCheckpoints 7 7, FacadeOp.close].foldl
          (stepOp toyLib) c7_client).checkpoints) = true :=
  c7_amended toyLib c7_client _ (by decide) (by decide)

/-! ## The snapshot writer (`_items_to_write`, `write_to_sqlite`, `save`) -/

/-- A row of `newest_entries`: `[oid, actual_tid, state, frequency]`. -/
structure NewRow where
  oid : Nat
  tid : Nat
  state : Option Bytes
  freq : Nat
deriving DecidableEq

/-- Failures of the write path: `CacheCorruptedError` raised by
`_items_to_write`, and the `TypeError` from comparing
`SUM(LENGTH(state))` — `NULL` over an empty `object_state` — against the
limit. -/
inductive WErr
  | corrupted
  | typeError
deriving DecidableEq

/-- Stable insertion keeping ascending frequency order. -/
def insertByFreq (x : SLRUEntry) : List SLRUEntry → List SLRUEntry
  | [] => [x]
  | y :: ys => if x.freq < y.freq then x :: y :: ys else y :: insertByFreq x ys

def sortByFreq (es : List SLRUEntry) : List SLRUEntry :=
  es.foldl (fun acc x => insertByFreq x acc) []

/-- Modelled from the spec: `SizedLRUMapping.items_to_write(generations)` —
the entries of a generation from least- to most-popular, stable
(spec §4.2). -/
def items_to_write (b : SizedLRUMapping) (g : Gen) : List SLRUEntry :=
  sortByFreq (b.entries.filter (fun e => decide (e.gen = g)))

/-- The `frequencies` map of `_items_to_write`: for each oid, the summed
frequency over the chained eden, protected and probation entries. -/
def clientFreqOf (eden prot prob : List SLRUEntry) (oid : Nat) : Nat :=
  (((eden ++ prot) ++ prob).filter (fun e => decide (e.key.1 = oid))).foldl
    (fun a e => a + e.freq) 0

/-- One iteration of the `newest_entries` loop of `_items_to_write`: on the
first sight of an oid insert `[oid, actual_tid, state, frequency]` if its
frequency exceeds the generation threshold; on a strictly newer
`actual_tid` replace only the recorded state (entry index 2 — the
recorded tid is left untouched, as in the source); on an equal
`actual_tid` with a different state raise `CacheCorruptedError`. -/
def newestStep (freqOf : Nat → Nat) (threshold : Nat) (acc : List NewRow)
    (e : SLRUEntry) : Except WErr (List NewRow) :=
  match acc.find? (fun r => decide (r.oid = e.key.1)) with
  | Option.none =>
    if freqOf e.key.1 > threshold then
      .ok (acc ++ [⟨e.key.1, e.value.2, e.value.1, freqOf e.key.1⟩])
    else .ok acc
  | some prev =>
    if prev.tid < e.value.2 then
      .ok (acc.map (fun r => if r.oid = e.key.1 then {r with state := e.value.1} else r))
    else if prev.tid = e.value.2 ∧ e.value.1 ≠ prev.state then
      .error .corrupted
    else .ok acc

/-- The inner `for k, v, _, _ in reversed(entries)` loop (the caller passes
the reversed entry list). -/
def scanEntries (freqOf : Nat → Nat) (threshold : Nat) (acc : List NewRow) :
    List SLRUEntry → Except WErr (List NewRow)
  | [] => .ok acc
  | e :: rest =>
    match newestStep freqOf threshold acc e with
    | .ok acc' => scanEntries freqOf threshold acc' rest
    | .error err => .error err

/-- `LocalClient._items_to_write`: collect the per-generation entry lists,
sum frequencies per oid, then scan each generation from most to least
popular with thresholds eden 0, protected 1, probation 0, and return the
accumulated newest entries (in insertion order). -/
def _items_to_write (b : SizedLRUMapping) : Except WErr (List NewRow) :=
  let eden_entries := items_to_write b Gen.eden
  let protected_entries := items_to_write b Gen.protectedGen
  let probation_entries := items_to_write b Gen.probation
  let freqOf := clientFreqOf eden_entries protected_entries probation_entries
  match scanEntries freqOf 0 [] eden_entries.reverse with
  | .error err => .error err
  | .ok a =>
    match scanEntries freqOf 1 a protected_entries.reverse with
    | .error err => .error err
    | .ok a =>
      scanEntries freqOf 0 a probation_entries.reverse

/-- A row of the snapshot store's `object_state` table. -/
structure DBRow where
  zoid : Nat
  tid : Nat
  frequency : Nat
  state : Bytes
deriving DecidableEq

/-- The snapshot store: whether the schema was created, the `object_state`
rows, and the single `checkpoints` row. -/
structure SDB where
  hasTables : Bool
  object_state : List DBRow
  checkpoints : Option (Nat × Nat)
deriving DecidableEq

def lookupNat (m : List (Nat × Nat)) (k : Nat) : Option Nat :=
  (m.find? (fun p => decide (p.1 = k))).map (·.2)

/-- The upsert of one staged row into `object_state`:
`ON CONFLICT(zoid) DO UPDATE SET tid, state, frequency = excluded.frequency
+ object_state.frequency WHERE excluded.tid > tid`; insert when absent. -/
def upsertRow (os : List DBRow) (r : NewRow) : List DBRow :=
  if os.any (fun q => decide (q.zoid = r.oid)) then
    os.map (fun q =>
      if q.zoid = r.oid ∧ r.tid > q.tid then
        ⟨q.zoid, r.tid, r.freq + q.frequency, r.state.getD []⟩
      else q)
  else os ++ [⟨r.oid, r.tid, r.freq, r.state.getD []⟩]

/-- Strict `(frequency, tid, zoid)` lexicographic order used by the trim
query `ORDER BY frequency ASC, tid ASC, zoid ASC`. -/
def trimLT (a b : DBRow) : Bool :=
  decide (a.frequency < b.frequency) ||
    (decide (a.frequency = b.frequency) &&
      (decide (a.tid < b.tid) || (decide (a.tid = b.tid) && decide (a.zoid < b.zoid))))

def insertTrim (x : DBRow) : List DBRow → List DBRow
  | [] => [x]
  | y :: ys => if trimLT x y then x :: y :: ys else y :: insertTrim x ys

def sortTrim (os : List DBRow) : List DBRow :=
  os.foldl (fun acc x => insertTrim x acc) []

/-- The trim loop: walk rows least-popular first, deleting and decrementing
the byte count, stopping once the count is at most the target. -/
def collectDel (limit : Nat) : List DBRow → Nat → List Nat
  | [], _ => []
  | r :: rest, cnt =>
    r.zoid ::
      (if cnt - r.state.length ≤ limit then []
       else collectDel limit rest (cnt - r.state.length))

def trimRows (limit total : Nat) (os : List DBRow) : List DBRow :=
  let dels := collectDel limit (sortTrim os) total
  os.filter (fun r => !(dels.contains r.zoid))

/-- `LocalClient.write_to_sqlite`: create the schema; collect
`_items_to_write` (whose `CacheCorruptedError` propagates); skip rows not
newer than the stored tid for their oid, and rows with a `None` state;
merge the staged rows with the monotone upsert; upsert the checkpoints
row when `cp0` strictly advances; then `SELECT SUM(LENGTH(state))` — over
an empty table the SUM is `NULL` and the comparison with the limit
raises `TypeError` — and trim down to the limit if over it.  (On the
error paths the partially committed store state is not tracked, only
the raised error.) -/
def write_to_sqlite (c : LocalClient) (db : SDB) : Except WErr SDB :=
  match _items_to_write c.bucket with
  | .error err => .error err
  | .ok rows =>
    let stored := db.object_state.map (fun r => (r.zoid, r.tid))
    let staged := rows.filter (fun r =>
      !((match lookupNat stored r.oid with
         | some t0 => decide (t0 ≥ r.tid)
         | Option.none => false) || decide (r.state = Option.none)))
    let os1 := staged.foldl upsertRow db.object_state
    let cps :=
      match c.checkpoints with
      | Option.none => db.checkpoints
      | some p =>
        match db.checkpoints with
        | Option.none => some p
        | some q => if p.1 > q.1 then some p else some q
    if os1 = [] then .error .typeError
    else
      let total := (os1.map (fun r => r.state.length)).sum
      if total > c.limit then .ok ⟨true, trimRows c.limit total os1, cps⟩
      else .ok ⟨true, os1, cps⟩

/-- `LocalClient.save`: only when `cache_local_dir` is set and the bucket
size is nonzero, connect and write; `CacheCorruptedError` (and only it)
is caught and logged, and the pathname is returned in every non-raising
case.  On the corrupted path only the schema creation has been
committed. -/
def saveF (c : LocalClient) (_overwrite : Bool) (db : SDB) :
    Except WErr (Option Unit × SDB) :=
  if c.cache_local_dir = true ∧ bucketSize c.bucket ≠ 0 then
    match write_to_sqlite c db with
    | .ok db' => .ok (some (), db')
    | .error .corrupted => .ok (some (), {db with hasTables := true})
    | .error err => .error err
  else .ok (Option.none, db)

/-! ## C4: corruption detection and `save` swallowing -/

def c4e_a : SLRUEntry := ⟨(1, 5), (some [10], 5), Gen.eden, 1⟩
def c4e_b : SLRUEntry := ⟨(1, 6), (some [20], 7), Gen.eden, 1⟩
def c4e_c : SLRUEntry := ⟨(1, 7), (some [30], 7), Gen.eden, 1⟩

def c4x_client : LocalClient :=
  { limit := 1000000, value_limit := 16384, alg := CompAlg.none,
    cache_local_dir := true,
    bucket := ⟨1000000, [c4e_b, c4e_c, c4e_a], 0, 0⟩,
    checkpoints := Option.none }

def c4x_db : SDB := ⟨true, [], Option.none⟩

/-- C4 (counterexample): the bucket holds two eden entries for oid 1 with
the same `actual_version` 7 and different states (`[20]` vs `[30]`), yet
the writer raises nothing: an older entry for the oid is scanned first,
and the newer-tid branch replaces only the recorded state, never the
recorded tid, so the conflict is not compared.  `_items_to_write`
returns normally (even recording tid 5 with the state of tid 7) and
`save` completes, writing the merged row. -/
theorem c4_counterexample :
    c4e_b.value.2 = c4e_c.value.2
    ∧ c4e_b.value.1 ≠ c4e_c.value.1
    ∧ c4e_b ∈ c4x_client.bucket.entries
    ∧ c4e_c ∈ c4x_client.bucket.entries
    ∧ _items_to_write c4x_client.bucket = .ok [⟨1, 5, some [20], 3⟩]
    ∧ saveF c4x_client false c4x_db =
        .ok (some (), ⟨true, [⟨1, 5, 3, [20]⟩], Option.none⟩) :=
  ⟨rfl, by decide, by decide, by decide, rfl, rfl⟩

/-- The frequency map the writer computes over the three entry lists. -/
def writerFreq (b : SizedLRUMapping) : Nat → Nat :=
  clientFreqOf (items_to_write b Gen.eden) (items_to_write b Gen.protectedGen)
    (items_to_write b Gen.probation)

/-- The writer's complete most-popular-first scan stream: every scanned
entry paired with the frequency threshold of its phase — eden (0), then
protected (1), then probation (0). -/
def writerStream (b : SizedLRUMapping) : List (Nat × SLRUEntry) :=
  (items_to_write b Gen.eden).reverse.map (fun e => (0, e))
    ++ ((items_to_write b Gen.protectedGen).reverse.map (fun e => (1, e))
      ++ (items_to_write b Gen.probation).reverse.map (fun e => (0, e)))

/-- The `newest_entries` scan over a threshold-tagged stream. -/
def scanTagged (f : Nat → Nat) (acc : List NewRow) :
    List (Nat × SLRUEntry) → Except WErr (List NewRow)
  | [] => .ok acc
  | (θ, e) :: rest =>
    match newestStep f θ acc e with
    | .ok acc' => scanTagged f acc' rest
    | .error err => .error err

theorem scanTagged_append (f : Nat → Nat) (L1 L2 : List (Nat × SLRUEntry))
    (a : List NewRow) :
    scanTagged f a (L1 ++ L2) =
      match scanTagged f a L1 with
      | .ok a' => scanTagged f a' L2
      | .error err => .error err := by
  induction L1 generalizing a with
  | nil => simp [scanTagged]
  | cons x xs ih =>
    rcases x with ⟨θ, e⟩
    simp only [List.cons_append, scanTagged]
    cases hx : newestStep f θ a e with
    | ok a1 => exact ih a1
    | error err => rfl

theorem scanTagged_map (f : Nat → Nat) (θ : Nat) (es : List SLRUEntry)
    (a : List NewRow) :
    scanTagged f a (es.map (fun e => (θ, e))) = scanEntries f θ a es := by
  induction es generalizing a with
  | nil => rfl
  | cons e rest ih =>
    simp only [List.map_cons, scanTagged, scanEntries]
    cases hx : newestStep f θ a e with
    | ok a1 => exact ih a1
    | error err => rfl

/-- `_items_to_write` is exactly the threshold-tagged scan of the writer's
complete stream. -/
theorem _items_to_write_eq_scan (b : SizedLRUMapping) :
    _items_to_write b = scanTagged (writerFreq b) [] (writerStream b) := by
  simp only [_items_to_write, writerStream, writerFreq]
  rw [scanTagged_append, scanTagged_map]
  cases h1 : scanEntries (clientFreqOf (items_to_write b Gen.eden)
      (items_to_write b Gen.protectedGen) (items_to_write b Gen.probation)) 0 []
      (items_to_write b Gen.eden).reverse with
  | error err => rfl
  | ok a =>
    dsimp only
    rw [scanTagged_append, scanTagged_map]
    cases h2 : scanEntries (clientFreqOf (items_to_write b Gen.eden)
        (items_to_write b Gen.protectedGen) (items_to_write b Gen.probation)) 1 a
        (items_to_write b Gen.protectedGen).reverse with
    | error err => rfl
    | ok a2 =>
      dsimp only
      rw [scanTagged_map]

/-- C4 (amended): if, at any point of the writer's complete
most-popular-first scan — eden, then protected, then probation, each
phase with its own frequency threshold — an entry has been recorded for
an oid and a later-scanned entry of the same oid has `actual_version`
equal to the *recorded* tid and a state different from the *recorded*
state, then `_items_to_write` raises the cache-corruption error, it
propagates out of `write_to_sqlite`, and `save()` catches exactly it,
returning the pathname without raising and leaving the in-memory cache
untouched (only the schema creation reaches the store). -/
theorem c4_amended (c : LocalClient) (db : SDB) (ow : Bool)
    (S1 S2 : List (Nat × SLRUEntry)) (θ : Nat) (e : SLRUEntry)
    (a' : List NewRow) (prev : NewRow)
    (hstream : writerStream c.bucket = S1 ++ (θ, e) :: S2)
    (hpre : scanTagged (writerFreq c.bucket) [] S1 = .ok a')
    (hprev : a'.find? (fun r => decide (r.oid = e.key.1)) = some prev)
    (htid : prev.tid = e.value.2)
    (hst : e.value.1 ≠ prev.state)
    (hdir : c.cache_local_dir = true)
    (hsz : bucketSize c.bucket ≠ 0) :
    _items_to_write c.bucket = .error WErr.corrupted
    ∧ write_to_sqlite c db = .error WErr.corrupted
    ∧ saveF c ow db = .ok (some (), {db with hasTables := true}) := by
  have hstep : newestStep (writerFreq c.bucket) θ a' e = .error .corrupted := by
    simp only [newestStep, hprev]
    rw [if_neg (by rw [htid]; exact lt_irrefl _), if_pos ⟨htid, hst⟩]
  have hscan : scanTagged (writerFreq c.bucket) [] (S1 ++ (θ, e) :: S2)
      = .error .corrupted := by
    rw [scanTagged_append, hpre]
    simp only [scanTagged, hstep]
  have h1 : _items_to_write c.bucket = .error WErr.corrupted := by
    rw [_items_to_write_eq_scan, hstream, hscan]
  refine ⟨h1, ?_, ?_⟩
  · simp only [write_to_sqlite, h1]
  · simp only [saveF]
    rw [if_pos ⟨hdir, hsz⟩]
    simp only [write_to_sqlite, h1]

def c4w_pb : SLRUEntry := ⟨(1, 6), (some [20], 7), Gen.protectedGen, 1⟩
def c4w_pc : SLRUEntry := ⟨(1, 7), (some [30], 7), Gen.protectedGen, 1⟩

def c4w_client : LocalClient :=
  { limit := 1000000, value_limit := 16384, alg := CompAlg.none,
    cache_local_dir := true,
    bucket := ⟨1000000, [c4w_pb, c4w_pc], 0, 0⟩,
    checkpoints := Option.none }

/-- C4 (witness): the two conflicting entries live in the *protected*
generation (threshold 1; their oid's summed frequency is 2, so the
first is recorded); the corruption is raised during the protected phase
of the scan and `save` swallows it. -/
theorem c4_witness :
    _items_to_write c4w_client.bucket = .error WErr.corrupted
    ∧ write_to_sqlite c4w_client c4x_db = .error WErr.corrupted
    ∧ saveF c4w_client true c4x_db = .ok (some (), {c4x_db with hasTables := true}) :=
  c4_amended c4w_client c4x_db true [(1, c4w_pc)] [] 1 c4w_pb
    [⟨1, 7, some [30], 2⟩] ⟨1, 7, some [30], 2⟩
    (by decide) rfl (by decide) (by decide) (by decide) (by decide) (by decide)

/-! ## C10: when `save` writes -/

/-- C10 (confirmed): `save` writes nothing and returns `None` whenever the
bucket size is zero or `cache_local_dir` is unset, for any `overwrite`;
and when the directory is set and the bucket non-empty it attempts the
write, returning the pathname unless the write path raises. -/
theorem c10_confirmed (c : LocalClient) (ow : Bool) (db : SDB) :
    ((c.cache_local_dir = false ∨ bucketSize c.bucket = 0) →
      saveF c ow db = .ok (Option.none, db))
    ∧ (c.cache_local_dir = true → bucketSize c.bucket ≠ 0 →
        (saveF c ow db = .error WErr.typeError
          ∨ ∃ db', saveF c ow db = .ok (some (), db'))) := by
  constructor
  · intro h
    have hcond : ¬(c.cache_local_dir = true ∧ bucketSize c.bucket ≠ 0) := by
      rcases h with h | h
      · intro hc
        rw [h] at hc
        exact Bool.false_ne_true hc.1
      · intro hc
        exact hc.2 h
    simp only [saveF]
    rw [if_neg hcond]
  · intro hd hs
    simp only [saveF]
    rw [if_pos ⟨hd, hs⟩]
    cases hw : write_to_sqlite c db with
    | ok db' => exact Or.inr ⟨db', rfl⟩
    | error err =>
      cases err with
      | corrupted => exact Or.inr ⟨_, rfl⟩
      | typeError => exact Or.inl rfl

def c10a_client : LocalClient :=
  { limit := 1000000, value_limit := 16384, alg := CompAlg.none,
    cache_local_dir := false,
    bucket := ⟨1000000, [⟨(4, 4), (some [9], 4), Gen.eden, 1⟩], 0, 0⟩,
    checkpoints := Option.none }

def c10b_client : LocalClient :=
  { c10a_client with cache_local_dir := true }

/-- C10 (witness): no directory configured means no write even with
`overwrite`, and with a directory and a non-empty bucket the write is
attempted. -/
theorem c10_witness :
    saveF c10a_client true c4x_db = .ok (Option.none, c4x_db)
    ∧ (saveF c10b_client false c4x_db = .error WErr.typeError
        ∨ ∃ db', saveF c10b_client false c4x_db = .ok (some (), db')) :=
  ⟨(c10_confirmed c10a_client true c4x_db).1 (Or.inl rfl),
   (c10_confirmed c10b_client false c4x_db).2 rfl (by decide)⟩

/-! ## The snapshot reader (`read_from_sqlite`) -/

/-- Strict comparison for `ORDER BY frequency, tid DESC`. -/
def readLT (a b : DBRow) : Bool :=
  decide (a.frequency < b.frequency) ||
    (decide (a.frequency = b.frequency) && decide (a.tid > b.tid))

def insertRead (x : DBRow) : List DBRow → List DBRow
  | [] => [x]
  | y :: ys => if readLT x y then x :: y :: ys else y :: insertRead x ys

def sortReadOrder (os : List DBRow) : List DBRow :=
  os.foldl (fun acc x => insertRead x acc) []

/-- Python-dict assignment `m[k] = v` preserving insertion order. -/
def setA (m : List (Nat × Nat)) (k v : Nat) : List (Nat × Nat) :=
  if m.any (fun p => decide (p.1 = k)) then
    m.map (fun p => if p.1 = k then (k, v) else p)
  else m ++ [(k, v)]

/-- The row loop of `read_from_sqlite.data()`: classify each row into a key
and a delta-map update, append it, add `len(state) + 32 + 16` to
`bytes_read`, and break once `bytes_read` exceeds the limit (the
overflowing row has already been appended). -/
def readLoop (cp0 cp1 limit : Nat) :
    List DBRow → Nat → List (Nat × Nat) → List (Nat × Nat) →
    List (OidTid × (Bytes × Nat)) × (List (Nat × Nat) × List (Nat × Nat))
  | [], _, d0, d1 => ([], (d0, d1))
  | r :: rest, bytes_read, d0, d1 =>
    let kd :=
      if r.tid ≥ cp0 then ((r.zoid, r.tid), (setA d0 r.zoid r.tid, d1))
      else if r.tid ≥ cp1 then ((r.zoid, r.tid), (d0, setA d1 r.zoid r.tid))
      else ((r.zoid, cp0), (d0, d1))
    let bytes' := bytes_read + (r.state.length + 32 + 16)
    if bytes' > limit then ([(kd.1, (r.state, r.tid))], kd.2)
    else
      let res := readLoop cp0 cp1 limit rest bytes' kd.2.1 kd.2.2
      ((kd.1, (r.state, r.tid)) :: res.1, res.2)

/-- Modelled from the spec: `SizedLRUMapping.bulk_update` — seed the bucket
with the given `(key, value)` rows in order (spec §4.2). -/
def bulkUpdate (b : SizedLRUMapping) (rows : List (OidTid × (Bytes × Nat))) :
    SizedLRUMapping :=
  rows.foldl (fun b' kv => bucketSet b' kv.1 (some kv.2.1, kv.2.2)) b

/-- `LocalClient.read_from_sqlite`: return `None` when the schema is absent;
otherwise store the checkpoints row when present (else use `(0, 0)`),
stream the rows in `ORDER BY frequency, tid DESC`, collect them with the
bounded loop, feed the reversed collection to `bulk_update`, and return
`(delta_after0, delta_after1)`. -/
def read_from_sqlite (c : LocalClient) (db : SDB) :
    Option (List (Nat × Nat) × List (Nat × Nat)) × LocalClient :=
  if db.hasTables = true then
    let cp0 := match db.checkpoints with | some p => p.1 | Option.none => 0
    let cp1 := match db.checkpoints with | some p => p.2 | Option.none => 0
    let c1 := match db.checkpoints with
      | some p => store_checkpoints c p.1 p.2
      | Option.none => c
    let ordered := sortReadOrder db.object_state
    let res := readLoop cp0 cp1 c.limit ordered 0 [] []
    (some res.2, {c1 with bucket := bulkUpdate c1.bucket res.1.reverse})
  else (Option.none, c)

/-! Spec-side restatement of the reader loop (from the amended claim's
words): each row weighs `len(state) + 48`; rows are collected while the
running total stays within the limit, plus the first overflowing row;
each collected row is indexed at `(oid, t)` when `t ≥ cp0` (recording
`delta_after0[oid] = t`), at `(oid, t)` when `cp1 ≤ t < cp0` (recording
`delta_after1[oid] = t`), and at `(oid, cp0)` otherwise. -/

def rowWeightSpec (r : DBRow) : Nat := r.state.length + 48

def sumsFrom (acc : Nat) : List DBRow → List Nat
  | [] => []
  | r :: rest => (acc + rowWeightSpec r) :: sumsFrom (acc + rowWeightSpec r) rest

def keepCount (limit acc : Nat) (rows : List DBRow) : Nat :=
  min rows.length
    (((sumsFrom acc rows).takeWhile (fun s => decide (s ≤ limit))).length + 1)

def classifyKey (cp0 cp1 : Nat) (r : DBRow) : OidTid :=
  if r.tid ≥ cp0 then (r.zoid, r.tid)
  else if r.tid ≥ cp1 then (r.zoid, r.tid)
  else (r.zoid, cp0)

def deltaStep (cp0 cp1 : Nat) (d : List (Nat × Nat) × List (Nat × Nat))
    (r : DBRow) : List (Nat × Nat) × List (Nat × Nat) :=
  if r.tid ≥ cp0 then (setA d.1 r.zoid r.tid, d.2)
  else if r.tid ≥ cp1 then (d.1, setA d.2 r.zoid r.tid)
  else d

def deltasFrom (cp0 cp1 : Nat) (d0 d1 : List (Nat × Nat)) (rows : List DBRow) :
    List (Nat × Nat) × List (Nat × Nat) :=
  rows.foldl (deltaStep cp0 cp1) (d0, d1)

theorem classify_pair (cp0 cp1 : Nat) (r : DBRow) (d0 d1 : List (Nat × Nat)) :
    (if r.tid ≥ cp0 then ((r.zoid, r.tid), (setA d0 r.zoid r.tid, d1))
     else if r.tid ≥ cp1 then ((r.zoid, r.tid), (d0, setA d1 r.zoid r.tid))
     else ((r.zoid, cp0), (d0, d1)))
      = (classifyKey cp0 cp1 r, deltaStep cp0 cp1 (d0, d1) r) := by
  simp only [classifyKey, deltaStep]
  split_ifs <;> rfl

theorem deltasFrom_cons (cp0 cp1 : Nat) (d0 d1 : List (Nat × Nat)) (r : DBRow)
    (l : List DBRow) :
    deltasFrom cp0 cp1 d0 d1 (r :: l) =
      deltasFrom cp0 cp1 (deltaStep cp0 cp1 (d0, d1) r).1
        (deltaStep cp0 cp1 (d0, d1) r).2 l := by
  simp [deltasFrom, List.foldl_cons]

/-- The reader loop collects exactly the `keepCount` prefix of the stream,
pairing each row with its classified key, and folds the delta updates
over that same prefix. -/
theorem readLoop_eq (cp0 cp1 limit : Nat) :
    ∀ (rows : List DBRow) (acc : Nat) (d0 d1 : List (Nat × Nat)),
    readLoop cp0 cp1 limit rows acc d0 d1 =
      ((rows.take (keepCount limit acc rows)).map
          (fun r => (classifyKey cp0 cp1 r, (r.state, r.tid))),
       deltasFrom cp0 cp1 d0 d1 (rows.take (keepCount limit acc rows))) := by
  intro rows
  induction rows with
  | nil =>
    intro acc d0 d1
    simp [readLoop, keepCount, sumsFrom, deltasFrom]
  | cons r rest ih =>
    intro acc d0 d1
    have harith : acc + (r.state.length + 32 + 16) = acc + rowWeightSpec r := by
      simp only [rowWeightSpec]
      try omega
    simp only [readLoop, classify_pair]
    by_cases h : acc + (r.state.length + 32 + 16) > limit
    · rw [if_pos h]
      have hkc : keepCount limit acc (r :: rest) = 1 := by
        have hsum : ¬((fun s => decide (s ≤ limit)) (acc + rowWeightSpec r) = true) := by
          simp only [decide_eq_true_eq]
          omega
        simp only [keepCount, sumsFrom, List.takeWhile_cons, if_neg hsum,
          List.length_nil, List.length_cons]
        omega
      rw [hkc]
      simp [deltasFrom]
    · rw [if_neg h]
      have hkc : keepCount limit acc (r :: rest) =
          1 + keepCount limit (acc + rowWeightSpec r) rest := by
        have hsum : ((fun s => decide (s ≤ limit)) (acc + rowWeightSpec r) = true) := by
          simp only [decide_eq_true_eq]
          omega
        simp only [keepCount, sumsFrom, List.takeWhile_cons, if_pos hsum,
          List.length_cons]
        omega
      rw [hkc]
      have htake : (r :: rest).take (1 + keepCount limit (acc + rowWeightSpec r) rest)
          = r :: rest.take (keepCount limit (acc + rowWeightSpec r) rest) := by
        rw [Nat.add_comm, List.take_succ_cons]
      rw [htake]
      simp only [List.map_cons, deltasFrom_cons]
      rw [harith, ih]

/-- C5 (counterexample): with limit 10, the single streamed row has weight
`3 + 48 = 51 > 10`; the claim says the reader stops before reading a row
that would push the total over the limit, but the code reads and indexes
it, as witnessed by the returned `delta_after0 = {1: 5}` (the claimed
behaviour would return empty delta maps). -/
def c5x_client : LocalClient :=
  { limit := 10, value_limit := 16384, alg := CompAlg.none,
    cache_local_dir := true,
    bucket := ⟨10, [], 0, 0⟩, checkpoints := Option.none }

def c5x_db : SDB := ⟨true, [⟨1, 5, 0, [1, 2, 3]⟩], some (0, 0)⟩

theorem c5_counterexample :
    rowWeightSpec ⟨1, 5, 0, [1, 2, 3]⟩ > c5x_client.limit
    ∧ (read_from_sqlite c5x_client c5x_db).1 = some ([(1, 5)], []) :=
  ⟨by decide, rfl⟩

/-- C5 (amended): given checkpoints `(cp0, cp1)`, the reader indexes each
collected row at `(oid, t)` with `delta_after0[oid] = t` when `t ≥ cp0`,
at `(oid, t)` with `delta_after1[oid] = t` when `cp1 ≤ t < cp0`, and at
`(oid, cp0)` when `t < cp1`; it accumulates `len(state) + 48` per row
and collects rows while the running total stays within the configured
limit plus the first row that pushes it over; it reverses the collected
rows before feeding them to `bulk_update`; and it returns
`(delta_after0, delta_after1)`. -/
theorem c5_amended (c : LocalClient) (db : SDB) (cp0 cp1 : Nat)
    (hdb : db.hasTables = true)
    (hcp : db.checkpoints = some (cp0, cp1)) :
    read_from_sqlite c db =
      (some (deltasFrom cp0 cp1 [] []
          ((sortReadOrder db.object_state).take
            (keepCount c.limit 0 (sortReadOrder db.object_state)))),
       { store_checkpoints c cp0 cp1 with
         bucket := bulkUpdate c.bucket
           ((((sortReadOrder db.object_state).take
              (keepCount c.limit 0 (sortReadOrder db.object_state))).map
                (fun r => (classifyKey cp0 cp1 r, (r.state, r.tid)))).reverse) }) := by
  simp only [read_from_sqlite, hdb, hcp, if_pos]
  rw [readLoop_eq]
  rfl

/-- C5 (witness): the amended description on a three-row store spanning the
three checkpoint regions. -/
def c5w_client : LocalClient :=
  { limit := 200, value_limit := 16384, alg := CompAlg.none,
    cache_local_dir := true,
    bucket := ⟨200, [], 0, 0⟩, checkpoints := Option.none }

def c5w_db : SDB :=
  ⟨true, [⟨1, 12, 0, [9]⟩, ⟨2, 7, 1, [8, 8]⟩, ⟨3, 2, 2, [7]⟩], some (10, 5)⟩

theorem c5_witness :
    read_from_sqlite c5w_client c5w_db =
      (some (deltasFrom 10 5 [] []
          ((sortReadOrder c5w_db.object_state).take
            (keepCount c5w_client.limit 0 (sortReadOrder c5w_db.object_state)))),
       { store_checkpoints c5w_client 10 5 with
         bucket := bulkUpdate c5w_client.bucket
           ((((sortReadOrder c5w_db.object_state).take
              (keepCount c5w_client.limit 0 (sortReadOrder c5w_db.object_state))).map
                (fun r => (classifyKey 10 5 r, (r.state, r.tid)))).reverse) }) :=
  c5_amended c5w_client c5w_db 10 5 rfl rfl

end RelCache
